import Mathlib

/-
Verification development for the miramail repository.

The definitions below are a shallow embedding of the Python source:

* `numThreads`, `batchSize`, `chunkStart`, `chunkEnd`, `chunkSize` embed the
  chunking arithmetic of `Gmail._get_threads_from_refs` and
  `Gmail._get_messages_from_refs` (src/miramail/gmail/client.py):
  `num_threads = min(math.ceil(N / 10), 12)`, `batch_size = math.ceil(N / num_threads)`,
  worker `i` handles indices `range(i * batch_size, min(N, (i + 1) * batch_size))`.

* `seqBuild`, `chunkSlice`, `workerSlot`, `getThreadsFromRefs`,
  `getMessagesFromRefs` embed the reference-resolution fan-out.  Per-item
  resolution (`_build_thread_from_ref` / `_build_message_from_ref`) is a
  fallible call modelled as `f : α → Except E β`.  In the sequential path the
  list comprehension propagates the first exception.  In the parallel path each
  worker runs inside `threading.Thread`; an exception raised in a worker kills
  only that worker (Python's `Thread.join` does not re-raise), the worker's
  pre-allocated slot keeps its initial value `[]`, and the main thread returns
  `sum(lists, [])` normally.  `workerSlot` therefore maps a failing chunk to
  `[]`, and the parallel branch of `getThreadsFromRefs` is always `.ok`.

* The label machinery of src/miramail/gmail/message.py is embedded over a
  small model `PyV` of the Python runtime values involved (strings, pydantic
  `Label` objects, `None`, tuples), because `Message.modify_labels` relies on
  dynamic typing: its assertion iterates the *raw* `to_add` / `to_remove`
  arguments, so a single `str` iterates per character and a single pydantic v2
  `Label` iterates as `(field_name, value)` tuples.

* The Responder (src/miramail/main.py) body extraction, reply envelopes and
  delivery/acknowledge sequencing are embedded as `handleThreadBody`,
  `sendEnvelope` / `draftEnvelope` and `sendMessageRun` / `draftMessageRun`.

* Header composition and extraction (`Gmail._create_message` header assembly
  and the header loop of `Gmail._build_message_from_ref`) are embedded as
  `createMessageHeaders` and `extractHeaders`, with `", ".join` / `.split(", ")`
  embedded as `joinAddrs` / `splitAddrs`.
-/

namespace MiraMail

/-! ### Chunking arithmetic (client.py, fan-out paths) -/

/-- `num_threads = min(math.ceil(N / 10), 12)` (client.py lines 143-147). -/
def numThreads (n : ℕ) : ℕ := min ((n + 9) / 10) 12

/-- `batch_size = math.ceil(N / num_threads)` (client.py line 148). -/
def batchSize (n : ℕ) : ℕ := (n + numThreads n - 1) / numThreads n

/-- `start = thread_num * batch_size` (client.py line 154). -/
def chunkStart (n i : ℕ) : ℕ := i * batchSize n

/-- `end = min(N, (thread_num + 1) * batch_size)` (client.py line 155). -/
def chunkEnd (n i : ℕ) : ℕ := min n ((i + 1) * batchSize n)

/-- Number of indices in `range(start, end)` handled by worker `i`. -/
def chunkSize (n i : ℕ) : ℕ := chunkEnd n i - chunkStart n i

theorem numThreads_pos {n : ℕ} (h : 1 ≤ n) : 0 < numThreads n := by
  unfold numThreads
  omega

theorem numThreads_le (n : ℕ) : numThreads n ≤ 12 := min_le_right _ _

theorem le_numThreads_mul_batchSize {n : ℕ} (h : 1 ≤ n) :
    n ≤ numThreads n * batchSize n := by
  have hP : 0 < numThreads n := numThreads_pos h
  have h1 := Nat.div_add_mod (n + numThreads n - 1) (numThreads n)
  have h2 := Nat.mod_lt (n + numThreads n - 1) hP
  unfold batchSize
  omega

theorem chunkSize_eq_min_sub (n i : ℕ) :
    chunkSize n i = min n ((i + 1) * batchSize n) - min n (i * batchSize n) := by
  have hb : (i + 1) * batchSize n = i * batchSize n + batchSize n := by ring
  unfold chunkSize chunkStart chunkEnd
  omega

theorem chunk_sizes_sum {n : ℕ} (h : 1 ≤ n) :
    ∑ i ∈ Finset.range (numThreads n), chunkSize n i = n := by
  have hmono : Monotone (fun i : ℕ => min n (i * batchSize n)) := by
    intro i j hij
    exact min_le_min le_rfl (Nat.mul_le_mul_right _ hij)
  calc
    ∑ i ∈ Finset.range (numThreads n), chunkSize n i
        = ∑ i ∈ Finset.range (numThreads n),
            (min n ((i + 1) * batchSize n) - min n (i * batchSize n)) := by
          exact Finset.sum_congr rfl fun i _ => chunkSize_eq_min_sub n i
    _ = min n (numThreads n * batchSize n) - min n (0 * batchSize n) :=
          Finset.sum_range_tsub hmono (numThreads n)
    _ = n := by
          have := le_numThreads_mul_batchSize h
          omega

theorem chunk_nonempty_small {n : ℕ} (h1 : 1 ≤ n) (h2 : n ≤ 120) :
    ∀ i, i < numThreads n → 0 < chunkSize n i := by
  have key : ∀ m, m < 121 → ∀ j, j < 12 →
      m = 0 ∨ numThreads m ≤ j ∨ 0 < chunkSize m j := by decide
  intro i hi
  have hm : n < 121 := by omega
  have hj : i < 12 := lt_of_lt_of_le hi (numThreads_le n)
  rcases key n hm i hj with h | h | h
  · omega
  · omega
  · exact h

/-! ### Fan-out resolution of references (client.py) -/

/-- Sequential resolution: the list comprehension
`[build(refs[i]) for i in ...]`; the first exception aborts the remainder. -/
def seqBuild {α : Type} {β : Type} {E : Type} (f : α → Except E β) :
    List α → Except E (List β)
  | [] => .ok []
  | a :: as =>
    match f a with
    | .error e => .error e
    | .ok b =>
      match seqBuild f as with
      | .error e => .error e
      | .ok bs => .ok (b :: bs)

/-- The references handled by worker `i`:
`refs[j] for j in range(i * b, min(N, (i + 1) * b))`. -/
def chunkSlice {α : Type} (refs : List α) (b i : ℕ) : List α :=
  (refs.drop (i * b)).take (min refs.length ((i + 1) * b) - i * b)

/-- One worker's result slot: on success the resolved chunk is written into the
pre-allocated slot; if the per-item build raises, the worker thread dies and the
slot keeps its initial value `[]` (`threading.Thread` swallows the exception). -/
def workerSlot {α : Type} {β : Type} {E : Type} (f : α → Except E β)
    (refs : List α) (i : ℕ) : List β :=
  match seqBuild f (chunkSlice refs (batchSize refs.length) i) with
  | .ok l => l
  | .error _ => []

/-- `Gmail._get_threads_from_refs` (client.py lines 107-174): early return on
empty input, sequential path when `parallel` is false, otherwise fan-out into
`numThreads` workers whose slots are concatenated in index order
(`sum(thread_lists, [])`).  The parallel branch is always `.ok`: no worker
exception reaches the caller. -/
def getThreadsFromRefs {α : Type} {β : Type} {E : Type} (f : α → Except E β)
    (refs : List α) (parallel : Bool) : Except E (List β) :=
  if refs.isEmpty then .ok []
  else if parallel = false then seqBuild f refs
  else .ok (((List.range (numThreads refs.length)).map (workerSlot f refs)).flatten)

/-- `Gmail._get_messages_from_refs` (client.py lines 223-295); structurally
identical to `_get_threads_from_refs` with the message builder in place of the
thread builder. -/
def getMessagesFromRefs {α : Type} {β : Type} {E : Type} (f : α → Except E β)
    (refs : List α) (parallel : Bool) : Except E (List β) :=
  if refs.isEmpty then .ok []
  else if parallel = false then seqBuild f refs
  else .ok (((List.range (numThreads refs.length)).map (workerSlot f refs)).flatten)

theorem seqBuild_ok {α β E : Type} (f : α → Except E β) (g : α → β) :
    ∀ l : List α, (∀ a ∈ l, f a = .ok (g a)) → seqBuild f l = .ok (l.map g)
  | [], _ => rfl
  | a :: as, h => by
    have ha : f a = .ok (g a) := h a (List.mem_cons_self a as)
    have htail : seqBuild f as = .ok (as.map g) :=
      seqBuild_ok f g as fun x hx => h x (List.mem_cons_of_mem a hx)
    simp [seqBuild, ha, htail]

theorem chunkSlice_eq_take {α : Type} (refs : List α) (b i : ℕ) :
    chunkSlice refs b i = (refs.drop (i * b)).take b := by
  unfold chunkSlice
  rw [List.take_eq_take]
  have hlen : (refs.drop (i * b)).length = refs.length - i * b := by
    simp [List.length_drop]
  have hb : (i + 1) * b = i * b + b := by ring
  omega

theorem flatten_chunks {α : Type} (b : ℕ) :
    ∀ (P : ℕ) (l : List α), l.length ≤ P * b →
      ((List.range P).map (fun i => (l.drop (i * b)).take b)).flatten = l := by
  intro P
  induction P with
  | zero =>
    intro l hl
    simp at hl
    simp [hl]
  | succ P ih =>
    intro l hl
    rw [List.range_succ_eq_map]
    simp only [List.map_cons, List.map_map, List.flatten_cons]
    have hshift : ∀ i : ℕ,
        (l.drop (Nat.succ i * b)).take b = ((l.drop b).drop (i * b)).take b := by
      intro i
      rw [List.drop_drop]
      congr 2
      rw [Nat.succ_eq_add_one]
      ring
    have hmapeq :
        (List.range P).map ((fun i => (l.drop (i * b)).take b) ∘ Nat.succ)
          = (List.range P).map (fun i => ((l.drop b).drop (i * b)).take b) := by
      exact List.map_congr_left fun i _ => hshift i
    have hlen : (l.drop b).length ≤ P * b := by
      have hsb : (P + 1) * b = P * b + b := by ring
      simp only [List.length_drop]
      omega
    rw [hmapeq, ih (l.drop b) hlen]
    simp [List.take_append_drop]

theorem parallel_flatten_eq {α β E : Type} (f : α → Except E β) (g : α → β)
    (refs : List α) (h : ∀ a ∈ refs, f a = .ok (g a)) (hne : 1 ≤ refs.length) :
    ((List.range (numThreads refs.length)).map (workerSlot f refs)).flatten
      = refs.map g := by
  have hslot : ∀ i,
      workerSlot f refs i
        = ((refs.drop (i * batchSize refs.length)).take (batchSize refs.length)).map g := by
    intro i
    have hmem : ∀ a ∈ chunkSlice refs (batchSize refs.length) i, f a = .ok (g a) := by
      intro a ha
      apply h
      unfold chunkSlice at ha
      exact List.drop_subset _ _ (List.take_subset _ _ ha)
    unfold workerSlot
    rw [seqBuild_ok f g _ hmem, chunkSlice_eq_take]
  have hmap : (List.range (numThreads refs.length)).map (workerSlot f refs)
      = (List.range (numThreads refs.length)).map
          (fun i => ((refs.drop (i * batchSize refs.length)).take (batchSize refs.length)).map g) := by
    exact List.map_congr_left fun i _ => hslot i
  rw [hmap]
  have hcover :
      ((List.range (numThreads refs.length)).map
          (fun i => (refs.drop (i * batchSize refs.length)).take (batchSize refs.length))).flatten
        = refs :=
    flatten_chunks (batchSize refs.length) (numThreads refs.length) refs
      (le_numThreads_mul_batchSize hne)
  calc
    ((List.range (numThreads refs.length)).map
        (fun i => ((refs.drop (i * batchSize refs.length)).take (batchSize refs.length)).map g)).flatten
        = (((List.range (numThreads refs.length)).map
            (fun i => (refs.drop (i * batchSize refs.length)).take (batchSize refs.length))).flatten).map g := by
          rw [List.map_flatten, List.map_map]
          simp [Function.comp_def]
    _ = refs.map g := by rw [hcover]

theorem getMessages_eq_getThreads {α β E : Type} (f : α → Except E β)
    (refs : List α) (p : Bool) :
    getMessagesFromRefs f refs p = getThreadsFromRefs f refs p := rfl

theorem getThreads_parallel_eq_seq {α β E : Type} (f : α → Except E β) (g : α → β)
    (refs : List α) (h : ∀ a ∈ refs, f a = .ok (g a)) :
    getThreadsFromRefs f refs true = getThreadsFromRefs f refs false := by
  cases refs with
  | nil => rfl
  | cons a as =>
    have hne : 1 ≤ (a :: as).length := by simp
    have hA := parallel_flatten_eq f g (a :: as) h hne
    have hB := seqBuild_ok f g (a :: as) h
    unfold getThreadsFromRefs
    rw [hB]
    have hemp : ((a :: as).isEmpty = true) = False := by simp
    have ht : ((true : Bool) = false) = False := by simp
    have hf : ((false : Bool) = false) = True := by simp
    simp only [hemp, ht, hf, if_false, if_true]
    rw [hA]

/-- Claim C4 (corrected), counterexample: at `N = 121` the claim as stated
fails — `N ≥ 1` and worker index `11` is a valid chunk index
(`11 < numThreads 121 = 12`), yet that chunk is empty
(`start = 11 * 11 = 121 = N`). -/
theorem claim_C4_counterexample :
    1 ≤ 121 ∧ 11 < numThreads 121 ∧ chunkSize 121 11 = 0 := by decide

/-- Claim C4 (amended): for every `N ≥ 1` the chunk sizes of the fan-out
partition sum to `N`; no chunk is empty provided additionally `N ≤ 120`
(for `N ≥ 121` the worker cap of 12 can leave a trailing empty chunk). -/
theorem claim_C4_amended (n j : ℕ) (h1 : 1 ≤ n) :
    (∑ i ∈ Finset.range (numThreads n), chunkSize n i = n) ∧
    (n ≤ 120 → j < numThreads n → 0 < chunkSize n j) :=
  ⟨chunk_sizes_sum h1, fun h2 hj => chunk_nonempty_small h1 h2 j hj⟩

/-- Witness for `claim_C4_amended` at `N = 25`, chunk `2`. -/
theorem claim_C4_witness :
    (∑ i ∈ Finset.range (numThreads 25), chunkSize 25 i = 25) ∧
    (25 ≤ 120 → 2 < numThreads 25 → 0 < chunkSize 25 2) :=
  claim_C4_amended 25 2 (by decide)

/-- Claim C2 (code bug): a transport error in a single worker of the parallel
fan-out does not abort the overall operation.  With 11 references and the
builder failing on reference `0`, worker 0 (chunk `[0..5]`) dies, worker 1
succeeds, and both `_get_threads_from_refs` and `_get_messages_from_refs`
return normally with the partial list `[6, 7, 8, 9, 10]` — the failing
worker's chunk is silently missing — while the sequential path propagates the
error as the docstring (`Raises: HttpError`) and the claim demand. -/
theorem claim_C2_partial_result_eval :
    getThreadsFromRefs
        (fun a : ℕ => if a = 0 then (Except.error "HttpError" : Except String ℕ) else .ok a)
        [0, 1, 2, 3, 4, 5, 6, 7, 8, 9, 10] true = .ok [6, 7, 8, 9, 10] ∧
    getThreadsFromRefs
        (fun a : ℕ => if a = 0 then (Except.error "HttpError" : Except String ℕ) else .ok a)
        [0, 1, 2, 3, 4, 5, 6, 7, 8, 9, 10] false = .error "HttpError" ∧
    getMessagesFromRefs
        (fun a : ℕ => if a = 0 then (Except.error "HttpError" : Except String ℕ) else .ok a)
        [0, 1, 2, 3, 4, 5, 6, 7, 8, 9, 10] true = .ok [6, 7, 8, 9, 10] ∧
    getMessagesFromRefs
        (fun a : ℕ => if a = 0 then (Except.error "HttpError" : Except String ℕ) else .ok a)
        [0, 1, 2, 3, 4, 5, 6, 7, 8, 9, 10] false = .error "HttpError" :=
  ⟨rfl, rfl, rfl, rfl⟩

/-- Claim C5 (confirmed): when every per-reference build succeeds, the
parallel fan-out path of `_get_threads_from_refs` and
`_get_messages_from_refs` returns a list identical, in input order, to the
sequential (`parallel=False`) path, for every reference list (length ≥ 0). -/
theorem claim_C5_parallel_eq_sequential {α β E : Type} (f : α → Except E β)
    (g : α → β) (refs : List α) (h : ∀ a ∈ refs, f a = .ok (g a)) :
    getThreadsFromRefs f refs true = getThreadsFromRefs f refs false ∧
    getMessagesFromRefs f refs true = getMessagesFromRefs f refs false := by
  have ht := getThreads_parallel_eq_seq f g refs h
  exact ⟨ht, by rw [getMessages_eq_getThreads, getMessages_eq_getThreads]; exact ht⟩

/-- Witness for `claim_C5_parallel_eq_sequential` on a concrete input. -/
theorem claim_C5_witness :
    getThreadsFromRefs (fun a : ℕ => (Except.ok (a + 1) : Except String ℕ)) [3, 4, 5] true
      = getThreadsFromRefs (fun a : ℕ => (Except.ok (a + 1) : Except String ℕ)) [3, 4, 5] false ∧
    getMessagesFromRefs (fun a : ℕ => (Except.ok (a + 1) : Except String ℕ)) [3, 4, 5] true
      = getMessagesFromRefs (fun a : ℕ => (Except.ok (a + 1) : Except String ℕ)) [3, 4, 5] false :=
  claim_C5_parallel_eq_sequential (fun a : ℕ => (Except.ok (a + 1) : Except String ℕ))
    (fun a => a + 1) [3, 4, 5] (fun _ _ => rfl)

/-! ### Label mutation (message.py) -/

/-- Model of the Python runtime values that flow through
`Message.modify_labels`: strings, pydantic `Label` objects (id, name and the
three optional fields, kept in declaration order for iteration), `None`, and
the `(field_name, value)` tuples produced by iterating a pydantic v2 model. -/
inductive PyV : Type
  | pstr (s : String)
  | plabel (id name : String) (mlv llv ty : Option String)
  | pnone
  | ptuple (a b : PyV)

/-- Python `==` on the values above: strings compare by value; `Label.__eq__`
compares a label to a string by its id and to another label by id equality
(label.py lines 61-68); tuples compare componentwise; everything else is
unequal (`str.__eq__(tuple)` and `str.__eq__(None)` are `NotImplemented` and
fall back to identity, hence `False` here). -/
def pyEq : PyV → PyV → Bool
  | .pstr a, .pstr b => a == b
  | .plabel i _ _ _ _, .pstr s => i == s
  | .pstr s, .plabel i _ _ _ _ => i == s
  | .plabel i _ _ _ _, .plabel j _ _ _ _ => i == j
  | .pnone, .pnone => true
  | .ptuple a b, .ptuple c d => pyEq a c && pyEq b d
  | _, _ => false

/-- Python `x in l` for a list `l`: some element compares equal to `x`. -/
def pyIn (x : PyV) (l : List PyV) : Bool := l.any fun e => pyEq e x

/-- Python iteration over a value: a `str` yields its characters (as one-char
strings); a pydantic v2 `BaseModel` yields `(field_name, value)` tuples in
field-declaration order (`Label`: id, name, message_list_visibility,
label_list_visibility, type). -/
def pyIter : PyV → List PyV
  | .pstr s => s.data.map fun c => .pstr (String.mk [c])
  | .plabel i n mlv llv ty =>
      [.ptuple (.pstr "id") (.pstr i),
       .ptuple (.pstr "name") (.pstr n),
       .ptuple (.pstr "message_list_visibility") (optV mlv),
       .ptuple (.pstr "label_list_visibility") (optV llv),
       .ptuple (.pstr "type") (optV ty)]
  | .pnone => []
  | .ptuple a b => [a, b]
where
  optV : Option String → PyV
    | none => .pnone
    | some s => .pstr s

/-- A `to_add` / `to_remove` argument of `modify_labels`: either a single
`Label`-or-`str` value, or a Python list of such values. -/
inductive LabelArg : Type
  | one (v : PyV)
  | many (vs : List PyV)

/-- The `isinstance` normalization at the top of `modify_labels`
(message.py lines 351-362): a single label or id is wrapped into a
one-element list, a list is kept as is. -/
def normalizeArg : LabelArg → List PyV
  | .one v => [v]
  | .many vs => vs

/-- What the assertion of `modify_labels` actually iterates: the *raw*
`to_add` / `to_remove` argument (`for lbl in to_add`), not the normalized
list — a single value is iterated via Python iteration. -/
def iterArg : LabelArg → List PyV
  | .one v => pyIter v
  | .many vs => vs

/-- `lbl.id if isinstance(lbl, Label) else lbl` (message.py lines 410-416). -/
def labelIdOf : PyV → String
  | .plabel i _ _ _ _ => i
  | .pstr s => s
  | _ => ""

/-- `Message._create_update_labels`: the `(addLabelIds, removeLabelIds)`
request body built from the normalized lists. -/
def createUpdateLabels (toAdd toRemove : List PyV) : List String × List String :=
  (toAdd.map labelIdOf, toRemove.map labelIdOf)

/-- `Message.modify_labels` (message.py lines 334-385) after the remote
`modify` call returned `res` (the server's `labelIds`, a list of id strings):
the assertion checks `all(lbl in res for lbl in to_add)` and
`all(lbl not in res for lbl in to_remove)` over the raw arguments; on success
`label_ids` is overwritten with `res` (`some res`), otherwise an
`AssertionError` is raised (`none`). -/
def modifyLabels (toAdd toRemove : LabelArg) (res : List String) :
    Option (List String) :=
  if ((iterArg toAdd).all fun l => pyIn l (res.map PyV.pstr))
      && ((iterArg toRemove).all fun l => !pyIn l (res.map PyV.pstr))
  then some res
  else none

/-- `Message.add_label(to_add)` = `modify_labels(to_add, [])`
(message.py lines 274-287). -/
def addLabel (toAdd : PyV) (res : List String) : Option (List String) :=
  modifyLabels (.one toAdd) (.many []) res

/-- `Message.remove_label(to_remove)` = `modify_labels([], to_remove)`
(message.py lines 304-317). -/
def removeLabel (toRemove : PyV) (res : List String) : Option (List String) :=
  modifyLabels (.many []) (.one toRemove) res

/-- The property the spec says the assertion checks: the response label set
contains every added id and excludes every removed id. -/
def specLabelAssert (addIds removeIds res : List String) : Bool :=
  (addIds.all fun i => res.contains i) && (removeIds.all fun i => !res.contains i)

/-- The well-known `UNREAD` label constant (label.py line 74). -/
def unreadLabel : PyV := .plabel "UNREAD" "UNREAD" none none none

/-- Claim C3 (code bug): with a single id string `to_add = "STARRED"` and
`to_remove = []`, a server response `["STARRED"]` satisfies the requested
mutation (`specLabelAssert` passes on the ids produced by
`_create_update_labels`), yet `modify_labels` raises `AssertionError`
(returns `none`) because the assertion iterates the raw string character by
character; conversely, with a single `Label` removal the assertion iterates
pydantic field tuples, so a response that still contains the removed id
(violating the requested mutation) passes and the method returns normally,
overwriting `label_ids` with the offending set. -/
theorem claim_C3_assert_mismatch_eval :
    createUpdateLabels (normalizeArg (.one (.pstr "STARRED"))) (normalizeArg (.many []))
      = (["STARRED"], []) ∧
    specLabelAssert ["STARRED"] [] ["STARRED"] = true ∧
    modifyLabels (.one (.pstr "STARRED")) (.many []) ["STARRED"] = none ∧
    createUpdateLabels (normalizeArg (.many [])) (normalizeArg (.one unreadLabel))
      = ([], ["UNREAD"]) ∧
    specLabelAssert [] ["UNREAD"] ["UNREAD"] = false ∧
    modifyLabels (.many []) (.one unreadLabel) ["UNREAD"] = some ["UNREAD"] := by
  decide

/-- Claim C6 (code bug): `add_label` with the single label id `"STARRED"`
already present, the remote call succeeding and returning the resulting label
set `["STARRED"]`, raises `AssertionError` (returns `none`) instead of
returning normally with the label present in `label_ids`; `remove_label` of an
absent label does return normally. -/
theorem claim_C6_add_label_raises_eval :
    addLabel (.pstr "STARRED") ["STARRED"] = none ∧
    addLabel unreadLabel ["UNREAD", "INBOX"] = none ∧
    removeLabel (.pstr "UNREAD") ["INBOX"] = some ["INBOX"] := by
  decide

/-! ### Messages, threads and the Responder (message.py, thread.py, main.py) -/

/-- The fields of `Message` (message.py lines 24-65) used by the Responder and
the builders; `service`, `creds` and attachments are external handles. -/
structure Msg : Type where
  id : String
  thread_id : String
  recipient : String
  sender : String
  subject : String
  date : String
  snippet : String
  plain : Option String
  html : Option String
  label_ids : List String

/-- Python truthiness of an optional string field: `None` and `""` are falsy
(`if message.html:` in main.py lines 65-68). -/
def truthyStr : Option String → Bool
  | none => false
  | some s => !s.isEmpty

/-- The body-accumulation loop of `MiraMail._handle_thread`
(main.py lines 62-68): `body = []`, then per message append the html body if
truthy, else the plain body if truthy, else nothing. -/
def bodyLoop : List Msg → List String → List String
  | [], acc => acc
  | m :: ms, acc =>
    if truthyStr m.html then bodyLoop ms (acc ++ [m.html.getD ""])
    else if truthyStr m.plain then bodyLoop ms (acc ++ [m.plain.getD ""])
    else bodyLoop ms acc

/-- The body list `_handle_thread` passes to the reply-generation call. -/
def handleThreadBody (messages : List Msg) : List String :=
  bodyLoop messages []

/-- Modelled from the spec: per-message body selection — "prefer HTML body per
message, fall back to plain text if HTML absent, skip messages with neither". -/
def specBodySelection (m : Msg) : Option String :=
  if truthyStr m.html then m.html
  else if truthyStr m.plain then m.plain
  else none

theorem bodyLoop_eq_filterMap (ms : List Msg) :
    ∀ acc, bodyLoop ms acc = acc ++ ms.filterMap specBodySelection := by
  induction ms with
  | nil => intro acc; simp [bodyLoop]
  | cons m ms ih =>
    intro acc
    by_cases hh : truthyStr m.html = true
    · cases hhm : m.html with
      | none => rw [hhm] at hh; simp [truthyStr] at hh
      | some s =>
        have hsel : specBodySelection m = some s := by
          unfold specBodySelection
          rw [if_pos hh, hhm]
        have hstep : bodyLoop (m :: ms) acc = bodyLoop ms (acc ++ [s]) := by
          simp only [bodyLoop]
          rw [if_pos hh, hhm]
          simp
        rw [hstep, ih, List.filterMap_cons, hsel]
        simp
    · by_cases hp : truthyStr m.plain = true
      · cases hpm : m.plain with
        | none => rw [hpm] at hp; simp [truthyStr] at hp
        | some s =>
          have hsel : specBodySelection m = some s := by
            unfold specBodySelection
            rw [if_neg hh, if_pos hp, hpm]
          have hstep : bodyLoop (m :: ms) acc = bodyLoop ms (acc ++ [s]) := by
            simp only [bodyLoop]
            rw [if_neg hh, if_pos hp, hpm]
            simp
          rw [hstep, ih, List.filterMap_cons, hsel]
          simp
      · have hsel : specBodySelection m = none := by
          unfold specBodySelection
          rw [if_neg hh, if_neg hp]
        have hstep : bodyLoop (m :: ms) acc = bodyLoop ms acc := by
          simp only [bodyLoop]
          rw [if_neg hh, if_neg hp]
        rw [hstep, ih, List.filterMap_cons, hsel]

/-- Claim C8 (confirmed): the body list handed to the reply-generation
callback contains, per message in thread order, the html body when truthy,
else the plain body when truthy, and no entry for a message with neither —
in particular the html body wins whenever both are present. -/
theorem claim_C8_body_extraction (ms : List Msg) :
    handleThreadBody ms = ms.filterMap specBodySelection :=
  bodyLoop_eq_filterMap ms []

/-- The keyword arguments `MiraMail._send_message` / `_draft_message` pass to
`Gmail.send_message` / `Gmail.create_draft` (main.py lines 90-97, 107-114). -/
structure Envelope : Type where
  sender : String
  toAddr : String
  subject : String
  msg_html : Option String
  thread_id : Option String
  in_reply_to : Option String

/-- The envelope built by `MiraMail._send_message` (main.py lines 82-98):
`sender=message.sender, to=message.recipient, subject=message.subject,
msg_html=content, thread_id=message.thread_id, in_reply_to=message.id`. -/
def sendEnvelope (m : Msg) (content : String) : Envelope :=
  { sender := m.sender, toAddr := m.recipient, subject := m.subject,
    msg_html := some content, thread_id := some m.thread_id,
    in_reply_to := some m.id }

/-- The envelope built by `MiraMail._draft_message` (main.py lines 100-115);
identical addressing to `sendEnvelope`. -/
def draftEnvelope (m : Msg) (content : String) : Envelope :=
  { sender := m.sender, toAddr := m.recipient, subject := m.subject,
    msg_html := some content, thread_id := some m.thread_id,
    in_reply_to := some m.id }

/-- A concrete unread message: Alice wrote to the bot's mailbox. -/
def aliceMsg : Msg :=
  { id := "msg-1", thread_id := "thr-1", recipient := "bot@example.com",
    sender := "alice@example.com", subject := "Question", date := "",
    snippet := "When is the meeting?", plain := some "When is the meeting?",
    html := none, label_ids := ["INBOX", "UNREAD"] }

/-- Claim C1 (code bug): the Responder's outgoing envelope sets
`to = message.recipient` (and `sender = message.sender`), so the delivered
reply is addressed to the original message's *recipient* (the bot's own
mailbox), not to its sender as the claim states; subject, in-reply-to and
thread id do match the claim. -/
theorem claim_C1_reply_misaddressed_eval :
    (sendEnvelope aliceMsg "reply").toAddr = aliceMsg.recipient ∧
    (sendEnvelope aliceMsg "reply").toAddr ≠ aliceMsg.sender ∧
    (draftEnvelope aliceMsg "reply").toAddr = aliceMsg.recipient ∧
    (draftEnvelope aliceMsg "reply").toAddr ≠ aliceMsg.sender ∧
    (sendEnvelope aliceMsg "reply").subject = aliceMsg.subject ∧
    (sendEnvelope aliceMsg "reply").in_reply_to = some aliceMsg.id ∧
    (sendEnvelope aliceMsg "reply").thread_id = some aliceMsg.thread_id := by
  refine ⟨rfl, ?_, rfl, ?_, rfl, rfl, rfl⟩ <;> decide

/-- The remote calls `_send_message` / `_draft_message` can issue. -/
inductive ClientCall : Type
  | sendMessage (e : Envelope)
  | createDraft (e : Envelope)
  | modifyCall (addIds removeIds : List String)

/-- `Message.mark_as_read` = `remove_label(label.UNREAD)` =
`modify_labels([], UNREAD)` (message.py lines 79-89): one remote modify call
with body `([], ["UNREAD"])`; on transport error the message is unchanged; on
success the assertion runs (`removeLabel unreadLabel`) and `label_ids` is
overwritten with the server's set. -/
def markAsReadRun (m : Msg) (modifyOutcome : Except String (List String)) :
    List ClientCall × Msg × Option String :=
  ([.modifyCall [] ["UNREAD"]],
    match modifyOutcome with
    | .error e => (m, some e)
    | .ok res =>
      match removeLabel unreadLabel res with
      | some newIds => ({ m with label_ids := newIds }, none)
      | none => (m, some "AssertionError"))

/-- `MiraMail._send_message` (main.py lines 82-98): call
`client.send_message(...)`; only if it returns, call `message.mark_as_read()`.
Result: the remote calls issued in order, the final message state, and the
propagated exception if any. -/
def sendMessageRun (m : Msg) (content : String) (sendOutcome : Except String Unit)
    (modifyOutcome : Except String (List String)) :
    List ClientCall × Msg × Option String :=
  match sendOutcome with
  | .error e => ([.sendMessage (sendEnvelope m content)], m, some e)
  | .ok _ =>
    let mr := markAsReadRun m modifyOutcome
    (.sendMessage (sendEnvelope m content) :: mr.1, mr.2)

/-- `MiraMail._draft_message` (main.py lines 100-115): call
`client.create_draft(...)`; only if it returns, call `message.mark_as_read()`. -/
def draftMessageRun (m : Msg) (content : String) (draftOutcome : Except String Unit)
    (modifyOutcome : Except String (List String)) :
    List ClientCall × Msg × Option String :=
  match draftOutcome with
  | .error e => ([.createDraft (draftEnvelope m content)], m, some e)
  | .ok _ =>
    let mr := markAsReadRun m modifyOutcome
    (.createDraft (draftEnvelope m content) :: mr.1, mr.2)

theorem pyIn_tuple_strings (a b : PyV) (res : List String) :
    pyIn (.ptuple a b) (res.map PyV.pstr) = false := by
  induction res with
  | nil => rfl
  | cons r rs ih =>
    simp only [List.map_cons, pyIn, List.any_cons] at *
    simp [pyEq, ih]

theorem removeLabel_unread (res : List String) :
    removeLabel unreadLabel res = some res := by
  simp [removeLabel, modifyLabels, iterArg, pyIter, unreadLabel,
    pyIn_tuple_strings]

/-- Claim C10 (confirmed): delivery-then-acknowledge is atomic on error — if
`send_message` / `create_draft` raises, the only remote call issued is the
delivery itself (no label modify), the message's `label_ids` is unchanged and
the exception propagates; when delivery succeeds, the UNREAD-removal modify
call is issued after it, and on its success `label_ids` becomes the server's
returned set. -/
theorem claim_C10_deliver_then_ack (m : Msg) (content err : String)
    (mo : Except String (List String)) (res : List String) :
    sendMessageRun m content (.error err) mo
      = ([.sendMessage (sendEnvelope m content)], m, some err) ∧
    draftMessageRun m content (.error err) mo
      = ([.createDraft (draftEnvelope m content)], m, some err) ∧
    sendMessageRun m content (.ok ()) (.ok res)
      = ([.sendMessage (sendEnvelope m content), .modifyCall [] ["UNREAD"]],
          { m with label_ids := res }, none) ∧
    draftMessageRun m content (.ok ()) (.ok res)
      = ([.createDraft (draftEnvelope m content), .modifyCall [] ["UNREAD"]],
          { m with label_ids := res }, none) := by
  refine ⟨rfl, rfl, ?_, ?_⟩ <;>
    simp [sendMessageRun, draftMessageRun, markAsReadRun, removeLabel_unread]

/-- The provider's thread payload fields consumed by
`Gmail._build_thread_from_ref` (client.py lines 210-221). -/
structure ThreadResp : Type where
  id : String
  snippet : String

/-- The `Thread` record (thread.py lines 16-38). -/
structure GThread : Type where
  user_id : String
  id : String
  snippet : String
  messages : List Msg

/-- `Gmail._build_thread_from_ref` (client.py lines 210-221): takes the
provider's thread JSON and the recursively resolved messages; the provider's
snippet is discarded (`snippet = ""`, the `html.unescape(thread['snippet'])`
line is commented out). -/
def buildThreadFromRef (user_id : String) (resp : ThreadResp)
    (messages : List Msg) : GThread :=
  { user_id := user_id, id := resp.id, snippet := "", messages := messages }

/-- Claim C9 (confirmed): every `Thread` built by the client's
thread-resolution path has an empty snippet, whatever snippet the provider
returned — two provider responses differing only in snippet build the same
`Thread`. -/
theorem claim_C9_snippet_discarded (u i s1 s2 : String) (ms : List Msg) :
    (buildThreadFromRef u ⟨i, s1⟩ ms).snippet = "" ∧
    buildThreadFromRef u ⟨i, s1⟩ ms = buildThreadFromRef u ⟨i, s2⟩ ms :=
  ⟨rfl, rfl⟩

/-! ### Envelope headers: composition and extraction (client.py) -/

/-- Python `", ".join(addrs)` at the character level
(`msg["Cc"] = ", ".join(cc)`, client.py line 437). -/
def joinCS : List (List Char) → List Char
  | [] => []
  | [a] => a
  | a :: b :: rest => a ++ ',' :: ' ' :: joinCS (b :: rest)

/-- Python `s.split(", ")` (client.py lines 553, 555): scan left to right for
non-overlapping occurrences of the two-character separator; `acc` is the
current chunk, accumulated in reverse. -/
def splitCS : List Char → List Char → List (List Char)
  | [], acc => [acc.reverse]
  | [c], acc => [(c :: acc).reverse]
  | c :: d :: rest, acc =>
    if c = ',' ∧ d = ' ' then acc.reverse :: splitCS rest []
    else splitCS (d :: rest) (c :: acc)

/-- `", ".join` on address strings. -/
def joinAddrs (addrs : List String) : String :=
  String.mk (joinCS (addrs.map String.data))

/-- `.split(", ")` on an address-list header value. -/
def splitAddrs (s : String) : List String :=
  (splitCS s.data []).map String.mk

/-- The header assembly of `Gmail._create_message` (client.py lines 431-446),
for a message without attachments, references, in-reply-to, signature or
thread id: `To`, `From` and `Subject` are always set; `Cc` / `Bcc` are set
only when the list is non-empty (Python truthiness of `cc` / `bcc`), joined
with `", "`.  `msg_html` and `msg_plain` become body parts, not headers. -/
def createMessageHeaders (sender toAddr subject : String)
    (msg_html msg_plain : Option String) (cc bcc : List String) :
    List (String × String) :=
  [("To", toAddr), ("From", sender), ("Subject", subject)]
    ++ (if cc.isEmpty then [] else [("Cc", joinAddrs cc)])
    ++ (if bcc.isEmpty then [] else [("Bcc", joinAddrs bcc)])

/-- The header fields accumulated by the extraction loop of
`Gmail._build_message_from_ref` (client.py lines 532-555). -/
structure ParsedHeaders : Type where
  date : String
  sender : String
  recipient : String
  subject : String
  cc : List String
  bcc : List String

/-- Initial values of the extraction loop (client.py lines 533-539). -/
def initParsed : ParsedHeaders :=
  { date := "", sender := "", recipient := "", subject := "", cc := [], bcc := [] }

/-- Python `str.lower()` on a header name, per character. -/
def pyLower (s : String) : String := String.mk (s.data.map Char.toLower)

/-- One iteration of the header loop (client.py lines 540-555): header names
compare case-insensitively (`hdr["name"].lower()`); `Cc`/`Bcc` values are
split on `", "`.  The `Date` value goes through an external date parser with
a raw-string fallback; it is modelled here as the raw value (no claim depends
on it). -/
def extractStep (st : ParsedHeaders) (hdr : String × String) : ParsedHeaders :=
  if pyLower hdr.1 = "date" then { st with date := hdr.2 }
  else if pyLower hdr.1 = "from" then { st with sender := hdr.2 }
  else if pyLower hdr.1 = "to" then { st with recipient := hdr.2 }
  else if pyLower hdr.1 = "subject" then { st with subject := hdr.2 }
  else if pyLower hdr.1 = "cc" then { st with cc := splitAddrs hdr.2 }
  else if pyLower hdr.1 = "bcc" then { st with bcc := splitAddrs hdr.2 }
  else st

/-- The whole header loop. -/
def extractHeaders (headers : List (String × String)) : ParsedHeaders :=
  headers.foldl extractStep initParsed

theorem splitCS_no_comma :
    ∀ (a acc : List Char), ',' ∉ a → splitCS a acc = [acc.reverse ++ a] := by
  intro a
  induction a with
  | nil => intro acc _; simp [splitCS]
  | cons c a ih =>
    intro acc h
    rw [List.mem_cons] at h
    push_neg at h
    obtain ⟨hc, ha⟩ := h
    cases a with
    | nil => simp [splitCS]
    | cons d rest =>
      have hcond : ¬(c = ',' ∧ d = ' ') := fun hand => hc hand.1.symm
      simp only [splitCS, if_neg hcond]
      rw [ih (c :: acc) ha]
      simp

theorem splitCS_append_sep :
    ∀ (a acc rest : List Char), ',' ∉ a →
      splitCS (a ++ ',' :: ' ' :: rest) acc
        = (acc.reverse ++ a) :: splitCS rest [] := by
  intro a
  induction a with
  | nil =>
    intro acc rest _
    simp only [List.nil_append, splitCS, if_pos (And.intro rfl rfl)]
    simp
  | cons c a ih =>
    intro acc rest h
    rw [List.mem_cons] at h
    push_neg at h
    obtain ⟨hc, ha⟩ := h
    cases a with
    | nil =>
      have hcond : ¬(c = ',' ∧ ',' = ' ') := fun hand => hc hand.1.symm
      simp only [List.nil_append, List.cons_append, splitCS, if_neg hcond,
        if_pos (And.intro rfl rfl)]
      simp
    | cons d rest2 =>
      have hcond : ¬(c = ',' ∧ d = ' ') := fun hand => hc hand.1.symm
      simp only [List.cons_append, splitCS, if_neg hcond]
      have hrec := ih (c :: acc) rest ha
      simp only [List.cons_append, List.append_eq] at hrec ⊢
      rw [hrec]
      simp

theorem splitCS_joinCS :
    ∀ l : List (List Char), l ≠ [] → (∀ a ∈ l, ',' ∉ a) →
      splitCS (joinCS l) [] = l := by
  intro l
  induction l with
  | nil => intro h _; exact absurd rfl h
  | cons a l ih =>
    intro _ h
    have ha : ',' ∉ a := h a (List.mem_cons_self a l)
    cases l with
    | nil =>
      simp only [joinCS]
      rw [splitCS_no_comma a [] ha]
      simp
    | cons b t =>
      simp only [joinCS]
      rw [splitCS_append_sep a [] (joinCS (b :: t)) ha]
      rw [ih (by simp) fun x hx => h x (List.mem_cons_of_mem a hx)]
      simp

theorem splitAddrs_joinAddrs (l : List String) (hne : l ≠ [])
    (h : ∀ a ∈ l, ',' ∉ a.data) : splitAddrs (joinAddrs l) = l := by
  unfold splitAddrs joinAddrs
  have hmapne : l.map String.data ≠ [] := by
    cases l with
    | nil => exact absurd rfl hne
    | cons a t => simp
  have hmap : ∀ x ∈ l.map String.data, ',' ∉ x := by
    intro x hx
    obtain ⟨s, hs, hsx⟩ := List.mem_map.mp hx
    exact hsx ▸ h s hs
  rw [show (String.mk (joinCS (l.map String.data))).data
        = joinCS (l.map String.data) from rfl]
  rw [splitCS_joinCS (l.map String.data) hmapne hmap, List.map_map]
  have hid : (String.mk ∘ String.data) = id := funext fun s => rfl
  rw [hid, List.map_id]

theorem extractStep_date (st : ParsedHeaders) (v : String) :
    extractStep st ("Date", v) = { st with date := v } := rfl

theorem extractStep_from (st : ParsedHeaders) (v : String) :
    extractStep st ("From", v) = { st with sender := v } := rfl

theorem extractStep_to (st : ParsedHeaders) (v : String) :
    extractStep st ("To", v) = { st with recipient := v } := rfl

theorem extractStep_subject (st : ParsedHeaders) (v : String) :
    extractStep st ("Subject", v) = { st with subject := v } := rfl

theorem extractStep_cc (st : ParsedHeaders) (v : String) :
    extractStep st ("Cc", v) = { st with cc := splitAddrs v } := rfl

theorem extractStep_bcc (st : ParsedHeaders) (v : String) :
    extractStep st ("Bcc", v) = { st with bcc := splitAddrs v } := rfl

theorem extract_create (sender toAddr subject : String)
    (mh mp : Option String) (cc bcc : List String) :
    extractHeaders (createMessageHeaders sender toAddr subject mh mp cc bcc)
      = { date := "", sender := sender, recipient := toAddr, subject := subject,
          cc := if cc.isEmpty then [] else splitAddrs (joinAddrs cc),
          bcc := if bcc.isEmpty then [] else splitAddrs (joinAddrs bcc) } := by
  by_cases h1 : cc.isEmpty <;> by_cases h2 : bcc.isEmpty <;>
    (simp only [createMessageHeaders, extractHeaders, h1, h2, if_true, if_false,
      Bool.false_eq_true, List.append_nil, List.nil_append, List.cons_append,
      List.append_assoc, List.singleton_append, List.foldl_cons, List.foldl_nil,
      extractStep_to, extractStep_from, extractStep_subject, extractStep_cc,
      extractStep_bcc]
     rfl)

theorem addr_list_roundtrip (l : List String) (h : ∀ a ∈ l, ',' ∉ a.data) :
    (if l.isEmpty then ([] : List String) else splitAddrs (joinAddrs l)) = l := by
  cases l with
  | nil => rfl
  | cons a t =>
    rw [if_neg (by simp)]
    exact splitAddrs_joinAddrs (a :: t) (by simp) h

/-- Claim C7 (confirmed): composing the outgoing envelope headers from
(sender, recipient, subject, html body, plain body, cc, bcc) and parsing them
back with the client's header extraction (case-insensitive names, `Cc`/`Bcc`
split on `", "`) recovers the same sender, recipient and subject, and the
same cc/bcc address lists (exact list equality, hence equality as sets),
provided no address contains a comma. -/
theorem claim_C7_header_round_trip (sender toAddr subject : String)
    (msg_html msg_plain : Option String) (cc bcc : List String)
    (hcc : ∀ a ∈ cc, ',' ∉ a.data) (hbcc : ∀ a ∈ bcc, ',' ∉ a.data) :
    (extractHeaders (createMessageHeaders sender toAddr subject msg_html msg_plain cc bcc)).sender
      = sender ∧
    (extractHeaders (createMessageHeaders sender toAddr subject msg_html msg_plain cc bcc)).recipient
      = toAddr ∧
    (extractHeaders (createMessageHeaders sender toAddr subject msg_html msg_plain cc bcc)).subject
      = subject ∧
    (extractHeaders (createMessageHeaders sender toAddr subject msg_html msg_plain cc bcc)).cc
      = cc ∧
    (extractHeaders (createMessageHeaders sender toAddr subject msg_html msg_plain cc bcc)).bcc
      = bcc := by
  rw [extract_create]
  exact ⟨rfl, rfl, rfl, addr_list_roundtrip cc hcc, addr_list_roundtrip bcc hbcc⟩

/-- Witness for `claim_C7_header_round_trip` on a concrete envelope. -/
theorem claim_C7_witness :
    (extractHeaders (createMessageHeaders "bot@example.com" "alice@example.com" "Re: hi"
        (some "<p>x</p>") none ["a@x.com", "b@y.com"] [])).sender = "bot@example.com" ∧
    (extractHeaders (createMessageHeaders "bot@example.com" "alice@example.com" "Re: hi"
        (some "<p>x</p>") none ["a@x.com", "b@y.com"] [])).recipient = "alice@example.com" ∧
    (extractHeaders (createMessageHeaders "bot@example.com" "alice@example.com" "Re: hi"
        (some "<p>x</p>") none ["a@x.com", "b@y.com"] [])).subject = "Re: hi" ∧
    (extractHeaders (createMessageHeaders "bot@example.com" "alice@example.com" "Re: hi"
        (some "<p>x</p>") none ["a@x.com", "b@y.com"] [])).cc = ["a@x.com", "b@y.com"] ∧
    (extractHeaders (createMessageHeaders "bot@example.com" "alice@example.com" "Re: hi"
        (some "<p>x</p>") none ["a@x.com", "b@y.com"] [])).bcc = [] :=
  claim_C7_header_round_trip "bot@example.com" "alice@example.com" "Re: hi"
    (some "<p>x</p>") none ["a@x.com", "b@y.com"] [] (by decide) (by decide)

end MiraMail
